import Mathlib

/-!
Verification development for the mood-tracker service: a shallow embedding of
the threshold store, the range-based mood classifier, the adaptive tuner
(`app.py`), the manual mood endpoint (`app.py`), and the Spotify dispatch
daemon (`mood_analyzer2.py`), together with theorems about the spec's claims.
Temperatures are modelled as rationals, timestamps as naturals.
-/

namespace MoodTracker

/-- A closed temperature interval for one mood category.
Mirrors the `Threshold` row columns `min_temp` / `max_temp` of `app.py`. -/
structure Range where
  min : ℚ
  max : ℚ
deriving DecidableEq, Repr

/-- The threshold store: an association list from mood name to its interval,
in database iteration order (seed/insertion order, as returned by
`Threshold.query.all()`). The mood name is the primary key. -/
abbrev Thresholds := List (String × Range)

/-- The seeded defaults of `app.py` (`DEFAULT_THRESHOLDS`), in the
insertion order of the Python dict literal. -/
def DEFAULT_THRESHOLDS : Thresholds :=
  [("calm", ⟨36.1, 36.5⟩),
   ("happy", ⟨36.6, 37.0⟩),
   ("energetic", ⟨37.1, 37.5⟩),
   ("stressed", ⟨37.6, 38.0⟩),
   ("anxious", ⟨38.1, 39.0⟩)]

/-- The static mood-to-playlist configuration table (`MOOD_PLAYLISTS`),
shared by `app.py` and the daemon. -/
def MOOD_PLAYLISTS : List (String × String) :=
  [("calm", "37i9dQZF1DWZd79rJ6a7lp"),
   ("happy", "37i9dQZF1DXdPec7aLTmlC"),
   ("energetic", "37i9dQZF1DX76Wlfdnj7AP"),
   ("stressed", "37i9dQZF1DX3rxVfibe1L0"),
   ("anxious", "37i9dQZF1DWZqd5JICZI0u")]

/-- `MOOD_PLAYLISTS.get(mood)`: first entry with the given key, if any. -/
def playlistFor : List (String × String) → String → Option String
  | [], _ => none
  | p :: rest, m => if p.1 = m then some p.2 else playlistFor rest m

/-- Dictionary lookup in the threshold store: the first entry whose mood
matches (the mood column is unique, so at most one entry matches). -/
def lookupThreshold : Thresholds → String → Option Range
  | [], _ => none
  | p :: rest, m => if p.1 = m then some p.2 else lookupThreshold rest m

/-- `save_user_thresholds` of `app.py`: upsert keyed by mood. An existing
row is updated in place (keeping its position); a new mood is appended. -/
def save_user_thresholds : Thresholds → String → ℚ → ℚ → Thresholds
  | [], m, lo, hi => [(m, ⟨lo, hi⟩)]
  | p :: rest, m, lo, hi =>
    if p.1 = m then (m, ⟨lo, hi⟩) :: rest
    else p :: save_user_thresholds rest m lo hi

/-- `seed_default_thresholds` of `app.py`: every default mood absent from the
store is inserted (appended, in default order); present moods are untouched. -/
def seed_default_thresholds (st : Thresholds) : Thresholds :=
  st ++ DEFAULT_THRESHOLDS.filter (fun p => (lookupThreshold st p.1).isNone)

/-- `determine_mood_from_temperature` of `app.py`: return the first mood in
store iteration order whose interval contains the temperature inclusively;
default to `"calm"` when none does. -/
def determine_mood_from_temperature : Thresholds → ℚ → String
  | [], _ => "calm"
  | p :: rest, t =>
    if p.2.min ≤ t ∧ t ≤ p.2.max then p.1
    else determine_mood_from_temperature rest t

/-- `tune_mood` of `app.py` (threshold part): widen the existing interval by
the 0.1 margins, or create a fresh interval with the 0.2 margins, then save. -/
def tune_mood (st : Thresholds) (c : String) (t : ℚ) : Thresholds :=
  match lookupThreshold st c with
  | some r => save_user_thresholds st c (min r.min (t - 0.1)) (max r.max (t + 0.1))
  | none => save_user_thresholds st c (t - 0.2) (t + 0.2)

/-- Modelled from the spec: the interval §4.3 says `tune` must compute from
the prior interval (if any) and the reported temperature. Used only to state
that the code's `tune_mood` stores exactly this interval. -/
def specTunedRange (prior : Option Range) (t : ℚ) : Range :=
  match prior with
  | some r => ⟨min r.min (t - 0.1), max r.max (t + 0.1)⟩
  | none => ⟨t - 0.2, t + 0.2⟩

/-- A `sensor_readings` row of `app.py` / `mood_analyzer2.py`. `timestamp`
is an abstract ordinal (seconds); `playlist_played` is the dispatched flag. -/
structure Reading where
  id : Nat
  timestamp : Nat
  device_id : String
  gyro_x : Option ℚ
  gyro_y : Option ℚ
  gyro_z : Option ℚ
  temperature : ℚ
  humidity : Option ℚ
  user_mood : String
  mood_source : String
  playlist_id : Option String
  playlist_played : Bool
deriving DecidableEq, Repr

/-- The reading ledger: the `sensor_readings` table in insertion order. -/
abbrev Ledger := List Reading

/-- The daemon's mark step, `UPDATE sensor_readings SET playlist_played = True
WHERE id = %s` (`mood_analyzer2.py`): unconditional, keyed by id only. -/
def markPlayed (led : Ledger) (i : Nat) : Ledger :=
  led.map (fun r => if r.id = i then { r with playlist_played := true } else r)

/-- Keep the strictly older of two readings (first argument on ties). -/
def olderOf (a b : Reading) : Reading :=
  if b.timestamp < a.timestamp then b else a

/-- The daemon's selection query, `SELECT ... WHERE playlist_played = False
ORDER BY timestamp ASC LIMIT 1` (`mood_analyzer2.py`): an undispatched reading
of minimal timestamp, or none. The query has no id tiebreak; this function
realises one permitted tie resolution (first in table order). -/
def selectOldestUnplayed (led : Ledger) : Option Reading :=
  match led.filter (fun r => !r.playlist_played) with
  | [] => none
  | r :: rest => some (rest.foldl olderOf r)

/-- The guarantee the `ORDER BY timestamp ASC LIMIT 1` query gives about a
fetched row: it is an undispatched row whose timestamp is minimal among
undispatched rows. Rows tied on timestamp are not distinguished by the query. -/
def canSelect (led : Ledger) (r : Reading) : Prop :=
  r ∈ led ∧ r.playlist_played = false ∧
    ∀ s ∈ led, s.playlist_played = false → r.timestamp ≤ s.timestamp

instance (led : Ledger) (r : Reading) : Decidable (canSelect led r) := by
  unfold canSelect; infer_instance

/-- The environment of one playback attempt: Spotify connection state, the
configured playlist table, the active device list, and whether the
`start_playback` call succeeds or raises. -/
structure SpotifyEnv where
  connected : Bool
  playlists : List (String × String)
  devices : List String
  startPlaybackOk : Bool

/-- Outcome of `play_mood_playlist`; the Python function returns `True` only
for `success` and `False` in every other case, catching every exception. -/
inductive PlayOutcome
  | success
  | notConnected
  | noPlaylist
  | noDevice
  | playbackError
deriving DecidableEq, Repr

/-- `play_mood_playlist` of `mood_analyzer2.py`: skip when not connected, when
the mood has no configured playlist, or when no device is active; otherwise
start playback on the first device, reporting failure if the call raises.
Totality of this function mirrors the catch-all exception handler. -/
def play_mood_playlist (env : SpotifyEnv) (mood : String) : PlayOutcome :=
  if !env.connected then .notConnected
  else
    match playlistFor env.playlists mood with
    | none => .noPlaylist
    | some _ =>
      match env.devices with
      | [] => .noDevice
      | _ :: _ => if env.startPlaybackOk then .success else .playbackError

/-- Daemon state: the shared ledger and the log of playback attempts
(reading id and outcome), in order. -/
structure DaemonState where
  ledger : Ledger
  playLog : List (Nat × PlayOutcome)
deriving Repr

/-- `check_for_new_mood_and_play` of `mood_analyzer2.py`, one tick: select the
oldest undispatched reading; if one exists, attempt playback for its mood and
then mark it played regardless of the outcome. -/
def check_for_new_mood_and_play (env : SpotifyEnv) (st : DaemonState) : DaemonState :=
  match selectOldestUnplayed st.ledger with
  | none => st
  | some r =>
    let outcome := play_mood_playlist env r.user_mood
    { ledger := markPlayed st.ledger r.id,
      playLog := st.playLog ++ [(r.id, outcome)] }

/-- `run_daemon` of `mood_analyzer2.py` restricted to `n` ticks of the single
serial polling loop. -/
def runTicks (env : SpotifyEnv) : Nat → DaemonState → DaemonState
  | 0, st => st
  | n + 1, st => runTicks env n (check_for_new_mood_and_play env st)

/-- Control point of one daemon instance inside a tick. `claimed` holds the
id and mood fetched by the selection query, before the playback attempt and
the mark update have run. -/
inductive Phase
  | idle
  | claimed (id : Nat) (mood : String)
deriving DecidableEq, Repr

/-- Two daemon instances sharing one ledger, each with its own control point
and its own log of readings for which it invoked the playback capability. -/
structure TwoDaemonState where
  ledger : Ledger
  phA : Phase
  phB : Phase
  logA : List Nat
  logB : List Nat
deriving Repr

/-- One atomic step of a single daemon instance, following the transaction
boundaries of `check_for_new_mood_and_play`: the selection query is one
database transaction, and the playback attempt followed by the unconditional
mark update is the rest of the tick. Merging playback and mark into one step
only shrinks the race window of the real code. -/
def instStep (led : Ledger) (ph : Phase) (log : List Nat) :
    Ledger × Phase × List Nat :=
  match ph with
  | .idle =>
    match selectOldestUnplayed led with
    | none => (led, .idle, log)
    | some r => (led, .claimed r.id r.user_mood, log)
  | .claimed i _ => (markPlayed led i, .idle, log ++ [i])

/-- Run one step of instance A (`true`) or instance B (`false`). -/
def schedStep (st : TwoDaemonState) (who : Bool) : TwoDaemonState :=
  if who then
    let s := instStep st.ledger st.phA st.logA
    { st with ledger := s.1, phA := s.2.1, logA := s.2.2 }
  else
    let s := instStep st.ledger st.phB st.logB
    { st with ledger := s.1, phB := s.2.1, logB := s.2.2 }

/-- Run the two racing instances under an interleaving schedule. -/
def runSched (st : TwoDaemonState) (sched : List Bool) : TwoDaemonState :=
  sched.foldl schedStep st

/-- The largest reading id in the ledger, i.e. the id of the row returned by
`SensorReading.query.order_by(SensorReading.id.desc()).first()` in `app.py`
(id is the unique, auto-incremented primary key). -/
def latestReadingId (led : Ledger) : Option Nat :=
  led.foldl (fun acc r =>
    match acc with
    | none => some r.id
    | some i => some (max i r.id)) none

/-- `manual_mood_selection` of `app.py`, branch without a submitted
temperature: update the most recent reading's mood, mood source and playlist
mapping in place; create nothing; touch nothing else. -/
def manual_mood_selection (led : Ledger) (mood : String) : Ledger :=
  match latestReadingId led with
  | none => led
  | some i =>
    led.map (fun r =>
      if r.id = i then
        { r with user_mood := mood, mood_source := "manual",
                 playlist_id := playlistFor MOOD_PLAYLISTS mood }
      else r)

/-- All `Reading` fields except the three that `manual_mood_selection`
assigns (`user_mood`, `mood_source`, `playlist_id`). -/
def frameFields (r : Reading) :
    Nat × Nat × String × Option ℚ × Option ℚ × Option ℚ × ℚ × Option ℚ × Bool :=
  (r.id, r.timestamp, r.device_id, r.gyro_x, r.gyro_y, r.gyro_z,
   r.temperature, r.humidity, r.playlist_played)

/-- An interval is well formed when its low end is at most its high end. -/
def rangeWF (r : Range) : Prop := r.min ≤ r.max

/-- Every interval in the store is well formed. -/
def storeWF (st : Thresholds) : Prop := ∀ p ∈ st, rangeWF p.2

/-- Threshold-store states reachable in `app.py`: the empty store at first
startup, seeding, and tuning are the only operations that write thresholds. -/
inductive ReachableThresholds : Thresholds → Prop
  | init : ReachableThresholds []
  | seed {st} : ReachableThresholds st →
      ReachableThresholds (seed_default_thresholds st)
  | tune {st} (c : String) (t : ℚ) : ReachableThresholds st →
      ReachableThresholds (tune_mood st c t)

/-! ### Concrete fixtures used by witnesses and counterexamples -/

/-- Reading id 1, occurred at second 0 (10:00:00), undispatched. -/
def demoReading1 : Reading :=
  { id := 1, timestamp := 0, device_id := "wearable_001",
    gyro_x := none, gyro_y := none, gyro_z := none,
    temperature := 36.8, humidity := none,
    user_mood := "happy", mood_source := "threshold",
    playlist_id := some "37i9dQZF1DXdPec7aLTmlC", playlist_played := false }

/-- Reading id 2, occurred at second 5 (10:00:05), undispatched. -/
def demoReading2 : Reading :=
  { id := 2, timestamp := 5, device_id := "wearable_001",
    gyro_x := none, gyro_y := none, gyro_z := none,
    temperature := 37.8, humidity := none,
    user_mood := "stressed", mood_source := "threshold",
    playlist_id := some "37i9dQZF1DX3rxVfibe1L0", playlist_played := false }

/-- Reading id 3, occurred at second 1 (10:00:01), undispatched. -/
def demoReading3 : Reading :=
  { id := 3, timestamp := 1, device_id := "wearable_001",
    gyro_x := none, gyro_y := none, gyro_z := none,
    temperature := 36.2, humidity := none,
    user_mood := "calm", mood_source := "threshold",
    playlist_id := some "37i9dQZF1DWZd79rJ6a7lp", playlist_played := false }

/-- The ledger of the spec's ordering scenario, in insertion order. -/
def demoLedger : Ledger := [demoReading1, demoReading2, demoReading3]

/-- A healthy playback environment: connected, configured, one device. -/
def env0 : SpotifyEnv :=
  { connected := true, playlists := MOOD_PLAYLISTS,
    devices := ["device_abc"], startPlaybackOk := true }

/-- The spec's failure scenario: connected but no active output target. -/
def envNoDevice : SpotifyEnv :=
  { connected := true, playlists := MOOD_PLAYLISTS,
    devices := [], startPlaybackOk := true }

/-- Undispatched reading id 1 at second 100. -/
def tieReadingA : Reading :=
  { id := 1, timestamp := 100, device_id := "wearable_001",
    gyro_x := none, gyro_y := none, gyro_z := none,
    temperature := 36.3, humidity := none,
    user_mood := "calm", mood_source := "threshold",
    playlist_id := some "37i9dQZF1DWZd79rJ6a7lp", playlist_played := false }

/-- Undispatched reading id 2, tied with `tieReadingA` on its timestamp. -/
def tieReadingB : Reading :=
  { id := 2, timestamp := 100, device_id := "wearable_001",
    gyro_x := none, gyro_y := none, gyro_z := none,
    temperature := 36.8, humidity := none,
    user_mood := "happy", mood_source := "threshold",
    playlist_id := some "37i9dQZF1DXdPec7aLTmlC", playlist_played := false }

/-- A ledger whose two undispatched readings share a timestamp. -/
def tieLedger : Ledger := [tieReadingA, tieReadingB]

/-- Two idle daemon instances racing over a one-reading ledger. -/
def raceStart : TwoDaemonState :=
  { ledger := [demoReading1], phA := .idle, phB := .idle, logA := [], logB := [] }

/-- An already-dispatched reading, id 1. -/
def dispReading1 : Reading :=
  { id := 1, timestamp := 0, device_id := "wearable_001",
    gyro_x := none, gyro_y := none, gyro_z := none,
    temperature := 36.3, humidity := none,
    user_mood := "calm", mood_source := "threshold",
    playlist_id := some "37i9dQZF1DWZd79rJ6a7lp", playlist_played := true }

/-- An already-dispatched reading, id 2, the most recent one. -/
def dispReading2 : Reading :=
  { id := 2, timestamp := 5, device_id := "wearable_001",
    gyro_x := none, gyro_y := none, gyro_z := none,
    temperature := 36.8, humidity := none,
    user_mood := "happy", mood_source := "threshold",
    playlist_id := some "37i9dQZF1DXdPec7aLTmlC", playlist_played := true }

/-- A ledger where everything has already been dispatched. -/
def dispLedger : Ledger := [dispReading1, dispReading2]

/-! ### Helper lemmas about the threshold store -/

theorem lookup_save (st : Thresholds) (m : String) (lo hi : ℚ) :
    lookupThreshold (save_user_thresholds st m lo hi) m = some ⟨lo, hi⟩ := by
  induction st with
  | nil => simp [save_user_thresholds, lookupThreshold]
  | cons p rest ih =>
    by_cases h : p.1 = m
    · simp [save_user_thresholds, h, lookupThreshold]
    · simp [save_user_thresholds, h, lookupThreshold, ih]

theorem lookup_tune (st : Thresholds) (c : String) (t : ℚ) :
    lookupThreshold (tune_mood st c t) c
      = some (specTunedRange (lookupThreshold st c) t) := by
  unfold tune_mood specTunedRange
  cases h : lookupThreshold st c with
  | none => exact lookup_save st c (t - 0.2) (t + 0.2)
  | some r => exact lookup_save st c (min r.min (t - 0.1)) (max r.max (t + 0.1))

theorem lookup_some_mem {st : Thresholds} {m : String} {r : Range}
    (h : lookupThreshold st m = some r) : (m, r) ∈ st := by
  induction st with
  | nil => simp [lookupThreshold] at h
  | cons p rest ih =>
    by_cases hp : p.1 = m
    · simp [lookupThreshold, hp] at h
      obtain ⟨p1, p2⟩ := p
      simp only at hp h
      subst hp; subst h
      exact List.mem_cons_self _ _
    · simp [lookupThreshold, hp] at h
      exact List.mem_cons_of_mem _ (ih h)

theorem storeWF_save {st : Thresholds} {m : String} {lo hi : ℚ}
    (hst : storeWF st) (hlh : lo ≤ hi) :
    storeWF (save_user_thresholds st m lo hi) := by
  induction st with
  | nil =>
    intro p hp
    simp [save_user_thresholds] at hp
    subst hp; exact hlh
  | cons q rest ih =>
    have hq : rangeWF q.2 := hst q (List.mem_cons_self _ _)
    have hrest : storeWF rest := fun p hp => hst p (List.mem_cons_of_mem _ hp)
    by_cases h : q.1 = m
    · intro p hp
      simp only [save_user_thresholds, if_pos h] at hp
      rcases List.mem_cons.mp hp with rfl | hp'
      · exact hlh
      · exact hrest p hp'
    · intro p hp
      simp only [save_user_thresholds, if_neg h] at hp
      rcases List.mem_cons.mp hp with rfl | hp'
      · exact hq
      · exact ih hrest p hp'

theorem storeWF_defaults : storeWF DEFAULT_THRESHOLDS := by
  intro p hp
  simp [DEFAULT_THRESHOLDS] at hp
  rcases hp with h | h | h | h | h <;> subst h <;> unfold rangeWF <;> norm_num

theorem storeWF_seed {st : Thresholds} (hst : storeWF st) :
    storeWF (seed_default_thresholds st) := by
  intro p hp
  rcases List.mem_append.mp hp with h | h
  · exact hst p h
  · exact storeWF_defaults p (List.mem_of_mem_filter h)

theorem storeWF_tune {st : Thresholds} (hst : storeWF st) (c : String) (t : ℚ) :
    storeWF (tune_mood st c t) := by
  unfold tune_mood
  cases h : lookupThreshold st c with
  | none =>
    exact storeWF_save hst (by linarith)
  | some r =>
    have hr : rangeWF r := hst (c, r) (lookup_some_mem h)
    exact storeWF_save hst
      (le_trans (le_trans (min_le_left _ _) hr) (le_max_left _ _))

/-! ### Helper lemmas about the classifier -/

theorem classify_default (st : Thresholds) (t : ℚ)
    (h : ∀ p ∈ st, ¬(p.2.min ≤ t ∧ t ≤ p.2.max)) :
    determine_mood_from_temperature st t = "calm" := by
  induction st with
  | nil => rfl
  | cons p rest ih =>
    simp only [determine_mood_from_temperature]
    rw [if_neg (h p (List.mem_cons_self _ _))]
    exact ih fun q hq => h q (List.mem_cons_of_mem _ hq)

theorem classify_first (pre : Thresholds) (p : String × Range) (post : Thresholds)
    (t : ℚ) (hpre : ∀ q ∈ pre, ¬(q.2.min ≤ t ∧ t ≤ q.2.max))
    (hp : p.2.min ≤ t ∧ t ≤ p.2.max) :
    determine_mood_from_temperature (pre ++ p :: post) t = p.1 := by
  induction pre with
  | nil => simp only [List.nil_append, determine_mood_from_temperature, if_pos hp]
  | cons q rest ih =>
    simp only [List.cons_append, determine_mood_from_temperature]
    rw [if_neg (hpre q (List.mem_cons_self _ _))]
    exact ih fun q' hq' => hpre q' (List.mem_cons_of_mem _ hq')

theorem classify_mem (st : Thresholds) (t : ℚ) :
    determine_mood_from_temperature st t = "calm" ∨
      ∃ p ∈ st, determine_mood_from_temperature st t = p.1 ∧
        p.2.min ≤ t ∧ t ≤ p.2.max := by
  induction st with
  | nil => exact Or.inl rfl
  | cons p rest ih =>
    by_cases hp : p.2.min ≤ t ∧ t ≤ p.2.max
    · refine Or.inr ⟨p, List.mem_cons_self _ _, ?_, hp⟩
      simp only [determine_mood_from_temperature, if_pos hp]
    · have heq : determine_mood_from_temperature (p :: rest) t
          = determine_mood_from_temperature rest t := by
        simp only [determine_mood_from_temperature, if_neg hp]
      rcases ih with h | ⟨q, hq, hcl, hc⟩
      · exact Or.inl (heq ▸ h)
      · exact Or.inr ⟨q, List.mem_cons_of_mem _ hq, heq ▸ hcl, hc⟩

theorem classify_eq_of_lookup {st : Thresholds} {t : ℚ} {c : String} {r : Range}
    (hl : lookupThreshold st c = some r) (hc : r.min ≤ t ∧ t ≤ r.max)
    (hothers : ∀ p ∈ st, p.1 ≠ c → ¬(p.2.min ≤ t ∧ t ≤ p.2.max)) :
    determine_mood_from_temperature st t = c := by
  induction st with
  | nil => simp [lookupThreshold] at hl
  | cons p rest ih =>
    by_cases hp : p.1 = c
    · simp only [lookupThreshold, if_pos hp] at hl
      injection hl with hl
      simp only [determine_mood_from_temperature, hl, if_pos hc]
      exact hp
    · simp only [lookupThreshold, if_neg hp] at hl
      simp only [determine_mood_from_temperature,
        if_neg (hothers p (List.mem_cons_self _ _) hp)]
      exact ih hl fun q hq hqc => hothers q (List.mem_cons_of_mem _ hq) hqc

/-! ### Helper lemmas about the dispatch daemon -/

theorem foldl_olderOf_mem (l : List Reading) :
    ∀ a : Reading, l.foldl olderOf a = a ∨ l.foldl olderOf a ∈ l := by
  induction l with
  | nil => intro a; exact Or.inl rfl
  | cons b bs ih =>
    intro a
    rw [List.foldl_cons]
    rcases ih (olderOf a b) with h | h
    · rw [h]; unfold olderOf
      by_cases hb : b.timestamp < a.timestamp
      · rw [if_pos hb]; exact Or.inr (List.mem_cons_self _ _)
      · rw [if_neg hb]; exact Or.inl rfl
    · exact Or.inr (List.mem_cons_of_mem _ h)

theorem foldl_olderOf_le (l : List Reading) :
    ∀ a : Reading, (l.foldl olderOf a).timestamp ≤ a.timestamp ∧
      ∀ s ∈ l, (l.foldl olderOf a).timestamp ≤ s.timestamp := by
  induction l with
  | nil => intro a; exact ⟨le_refl _, by simp⟩
  | cons b bs ih =>
    intro a
    rw [List.foldl_cons]
    have h := ih (olderOf a b)
    have hab : (olderOf a b).timestamp ≤ a.timestamp ∧
        (olderOf a b).timestamp ≤ b.timestamp := by
      unfold olderOf
      by_cases hb : b.timestamp < a.timestamp
      · rw [if_pos hb]; exact ⟨le_of_lt hb, le_refl _⟩
      · rw [if_neg hb]; exact ⟨le_refl _, le_of_not_lt hb⟩
    refine ⟨le_trans h.1 hab.1, ?_⟩
    intro s hs
    rcases List.mem_cons.mp hs with rfl | hs'
    · exact le_trans h.1 hab.2
    · exact h.2 s hs'

theorem select_some_canSelect {led : Ledger} {r : Reading}
    (h : selectOldestUnplayed led = some r) : canSelect led r := by
  unfold selectOldestUnplayed at h
  cases hq : led.filter (fun x => !x.playlist_played) with
  | nil => rw [hq] at h; exact absurd h (by simp)
  | cons q rest =>
    rw [hq] at h
    injection h with h
    have hmem : r ∈ q :: rest := by
      rcases foldl_olderOf_mem rest q with h1 | h1
      · rw [← h, h1]; exact List.mem_cons_self _ _
      · rw [← h]; exact List.mem_cons_of_mem _ h1
    have hmemf : r ∈ led.filter (fun x => !x.playlist_played) := hq ▸ hmem
    have hin := List.mem_filter.mp hmemf
    refine ⟨hin.1, by simpa using hin.2, ?_⟩
    intro s hs hsp
    have hsf : s ∈ led.filter (fun x => !x.playlist_played) :=
      List.mem_filter.mpr ⟨hs, by simp [hsp]⟩
    rw [hq] at hsf
    have hle := foldl_olderOf_le rest q
    rcases List.mem_cons.mp hsf with rfl | hs'
    · exact h ▸ hle.1
    · exact h ▸ hle.2 s hs'

theorem select_none_iff {led : Ledger} :
    selectOldestUnplayed led = none ↔
      led.filter (fun r => !r.playlist_played) = [] := by
  unfold selectOldestUnplayed
  cases hq : led.filter (fun r => !r.playlist_played) <;> simp

/-- Every row of the ledger carrying this reading id has been marked played:
the state the daemon's `UPDATE ... WHERE id = %s` leaves behind. -/
def idMarked (led : Ledger) (i : Nat) : Prop :=
  ∀ s ∈ led, s.id = i → s.playlist_played = true

theorem idMarked_markPlayed_self (led : Ledger) (i : Nat) :
    idMarked (markPlayed led i) i := by
  intro s hs hsi
  unfold markPlayed at hs
  rcases List.mem_map.mp hs with ⟨r, hr, rfl⟩
  by_cases h : r.id = i
  · rw [if_pos h]
  · rw [if_neg h] at hsi
    exact absurd hsi h

theorem idMarked_markPlayed (led : Ledger) (i j : Nat) (h : idMarked led j) :
    idMarked (markPlayed led i) j := by
  intro s hs hsj
  unfold markPlayed at hs
  rcases List.mem_map.mp hs with ⟨r, hr, rfl⟩
  by_cases hri : r.id = i
  · rw [if_pos hri]
  · rw [if_neg hri] at hsj ⊢
    exact h r hr hsj

/-- Invariant of the serial daemon loop: every reading id already in the play
log is marked in the ledger, and no id occurs twice in the play log. -/
def daemonInv (st : DaemonState) : Prop :=
  (∀ i ∈ st.playLog.map Prod.fst, idMarked st.ledger i) ∧
    (st.playLog.map Prod.fst).Nodup

theorem tick_preserves_daemonInv (env : SpotifyEnv) (st : DaemonState)
    (h : daemonInv st) : daemonInv (check_for_new_mood_and_play env st) := by
  obtain ⟨h1, h2⟩ := h
  unfold check_for_new_mood_and_play
  cases hsel : selectOldestUnplayed st.ledger with
  | none => exact ⟨h1, h2⟩
  | some r =>
    have hcs := select_some_canSelect hsel
    have hrid : r.id ∉ st.playLog.map Prod.fst := by
      intro hmem
      have := h1 r.id hmem r hcs.1 rfl
      rw [hcs.2.1] at this
      exact Bool.false_ne_true this
    constructor
    · intro i hi
      simp only [List.map_append, List.map_cons, List.map_nil,
        List.mem_append, List.mem_cons, List.not_mem_nil, or_false] at hi
      rcases hi with hi | hi
      · exact idMarked_markPlayed _ _ _ (h1 i hi)
      · subst hi; exact idMarked_markPlayed_self _ _
    · simp only [List.map_append, List.map_cons, List.map_nil]
      rw [List.nodup_append]
      exact ⟨h2, List.nodup_singleton _, by
        intro a ha hb
        simp only [List.mem_singleton] at hb
        subst hb
        exact hrid ha⟩

theorem runTicks_preserves_daemonInv (env : SpotifyEnv) (n : Nat) :
    ∀ st : DaemonState, daemonInv st → daemonInv (runTicks env n st) := by
  induction n with
  | zero => intro st h; exact h
  | succ n ih =>
    intro st h
    exact ih _ (tick_preserves_daemonInv env st h)

/-! ### Claim theorems -/

/-- C3: `tune_mood` stores exactly the spec's intervals. If the category is
present with interval [L,H], the stored interval becomes
[min(L, t − 0.1), max(H, t + 0.1)]; if it is absent, the stored interval
becomes [t − 0.2, t + 0.2]. -/
theorem tune_stores_spec_interval (st : Thresholds) (c : String) (t : ℚ) :
    (∀ L H : ℚ, lookupThreshold st c = some ⟨L, H⟩ →
      lookupThreshold (tune_mood st c t) c
        = some ⟨min L (t - 0.1), max H (t + 0.1)⟩) ∧
    (lookupThreshold st c = none →
      lookupThreshold (tune_mood st c t) c = some ⟨t - 0.2, t + 0.2⟩) := by
  constructor
  · intro L H h
    have h2 := lookup_tune st c t
    rw [h] at h2
    exact h2
  · intro h
    have h2 := lookup_tune st c t
    rw [h] at h2
    exact h2

/-- Witness for C3, the spec's two worked examples: tuning the unseen
category "furious" at 39.5 yields [39.3, 39.7], and tuning "happy" at 37.3
from [36.6, 37.0] yields [36.6, 37.4]. -/
theorem tune_stores_spec_interval_witness :
    lookupThreshold (tune_mood DEFAULT_THRESHOLDS "furious" 39.5) "furious"
        = some ⟨39.3, 39.7⟩ ∧
    lookupThreshold (tune_mood DEFAULT_THRESHOLDS "happy" 37.3) "happy"
        = some ⟨36.6, 37.4⟩ := by
  constructor
  · have h := (tune_stores_spec_interval DEFAULT_THRESHOLDS "furious" 39.5).2
      (by simp [lookupThreshold, DEFAULT_THRESHOLDS])
    rw [h]
    norm_num
  · have h := (tune_stores_spec_interval DEFAULT_THRESHOLDS "happy" 37.3).1 36.6 37.0
      (by simp [lookupThreshold, DEFAULT_THRESHOLDS])
    rw [h]
    norm_num

/-- C4: tuning an existing category never shrinks its interval, over any
sequence of repeated `tune_mood` calls for that category. -/
theorem tune_monotone_widening (st : Thresholds) (c : String) (L H : ℚ)
    (h : lookupThreshold st c = some ⟨L, H⟩) (ts : List ℚ) :
    ∃ L2 H2, lookupThreshold (ts.foldl (fun s x => tune_mood s c x) st) c
        = some ⟨L2, H2⟩ ∧ L2 ≤ L ∧ H ≤ H2 := by
  induction ts generalizing st L H with
  | nil => exact ⟨L, H, h, le_refl _, le_refl _⟩
  | cons t ts ih =>
    rw [List.foldl_cons]
    have h1 : lookupThreshold (tune_mood st c t) c
        = some ⟨min L (t - 0.1), max H (t + 0.1)⟩ := by
      have h2 := lookup_tune st c t
      rw [h] at h2
      exact h2
    obtain ⟨L2, H2, hl, hL, hH⟩ := ih _ _ _ h1
    exact ⟨L2, H2, hl, le_trans hL (min_le_left _ _),
      le_trans (le_max_left _ _) hH⟩

/-- Witness for C4: tuning "happy" at 37.3 and then at 39.0 leaves an
interval at least as wide as the default [36.6, 37.0]. -/
theorem tune_monotone_widening_witness :
    ∃ L2 H2,
      lookupThreshold
        (([37.3, 39.0] : List ℚ).foldl (fun s x => tune_mood s "happy" x)
          DEFAULT_THRESHOLDS) "happy" = some ⟨L2, H2⟩ ∧
      L2 ≤ 36.6 ∧ 37.0 ≤ H2 :=
  tune_monotone_widening DEFAULT_THRESHOLDS "happy" 36.6 37.0
    (by simp [lookupThreshold, DEFAULT_THRESHOLDS]) [37.3, 39.0]

/-- C5: the classifier is total. It returns "calm" when no interval contains
the temperature, returns the first category in store order whose interval
contains it inclusively, and always returns either a stored category whose
interval contains the temperature or the default "calm" — never nothing. -/
theorem classify_total_first_match (st : Thresholds) (t : ℚ) :
    ((∀ p ∈ st, ¬(p.2.min ≤ t ∧ t ≤ p.2.max)) →
      determine_mood_from_temperature st t = "calm") ∧
    (∀ pre p post, st = pre ++ p :: post → (p.2.min ≤ t ∧ t ≤ p.2.max) →
      (∀ q ∈ pre, ¬(q.2.min ≤ t ∧ t ≤ q.2.max)) →
      determine_mood_from_temperature st t = p.1) ∧
    (determine_mood_from_temperature st t = "calm" ∨
      ∃ p ∈ st, determine_mood_from_temperature st t = p.1 ∧
        p.2.min ≤ t ∧ t ≤ p.2.max) := by
  refine ⟨classify_default st t, ?_, classify_mem st t⟩
  intro pre p post hst hp hpre
  subst hst
  exact classify_first pre p post t hpre hp

/-- Witness for C5, the spec's scenario: with the default thresholds,
temperature 36.8 classifies as "happy". -/
theorem classify_total_first_match_witness :
    determine_mood_from_temperature DEFAULT_THRESHOLDS 36.8 = "happy" :=
  (classify_total_first_match DEFAULT_THRESHOLDS 36.8).2.1
    [("calm", ⟨36.1, 36.5⟩)] ("happy", ⟨36.6, 37.0⟩)
    [("energetic", ⟨37.1, 37.5⟩), ("stressed", ⟨37.6, 38.0⟩),
      ("anxious", ⟨38.1, 39.0⟩)]
    (by simp [DEFAULT_THRESHOLDS]) (by norm_num)
    (by intro q hq; simp at hq; subst hq; norm_num)

/-- C9: every reachable threshold-store state is well formed, low ≤ high:
the seeded defaults satisfy it and both branches of `tune_mood` preserve it. -/
theorem reachable_thresholds_wellformed {st : Thresholds}
    (h : ReachableThresholds st) : storeWF st := by
  induction h with
  | init => intro p hp; simp at hp
  | seed _ ih => exact storeWF_seed ih
  | tune c t _ ih => exact storeWF_tune ih c t

/-- Witness for C9: the store obtained by seeding and then tuning the unseen
category "furious" at 39.5 is well formed. -/
theorem reachable_thresholds_wellformed_witness :
    storeWF (tune_mood (seed_default_thresholds []) "furious" 39.5) :=
  reachable_thresholds_wellformed
    (ReachableThresholds.tune "furious" 39.5
      (ReachableThresholds.seed ReachableThresholds.init))

/-- C2, counterexample: after tuning "anxious" at 36.3 (which widens
"anxious" to [36.2, 39.0]), classifying 36.3 returns "calm" — the earlier
category "calm" = [36.1, 36.5] also contains 36.3 and wins in iteration
order — not the tuned category "anxious". -/
theorem tune_then_classify_mismatch :
    determine_mood_from_temperature
        (tune_mood DEFAULT_THRESHOLDS "anxious" 36.3) 36.3 = "calm" ∧
      ("calm" : String) ≠ "anxious" := by
  constructor
  · simp [tune_mood, lookupThreshold, save_user_thresholds,
      determine_mood_from_temperature, DEFAULT_THRESHOLDS]
    norm_num
  · decide

/-- C2, amended: after `tune_mood c t` the stored interval for `c` contains
`t`, and a subsequent classification of `t` returns `c` provided no other
category's interval in the updated store also contains `t`; under overlap the
first containing category in store order wins instead. -/
theorem tune_contains_point_classify (st : Thresholds) (c : String) (t : ℚ) :
    (∃ r, lookupThreshold (tune_mood st c t) c = some r ∧
      r.min ≤ t ∧ t ≤ r.max) ∧
    ((∀ p ∈ tune_mood st c t, p.1 ≠ c → ¬(p.2.min ≤ t ∧ t ≤ p.2.max)) →
      determine_mood_from_temperature (tune_mood st c t) t = c) := by
  have hl := lookup_tune st c t
  have hcont : (specTunedRange (lookupThreshold st c) t).min ≤ t ∧
      t ≤ (specTunedRange (lookupThreshold st c) t).max := by
    unfold specTunedRange
    cases lookupThreshold st c with
    | none => constructor <;> · simp only; linarith
    | some r =>
      constructor
      · exact le_trans (min_le_right _ _) (by linarith)
      · exact le_trans (by linarith) (le_max_right _ _)
  exact ⟨⟨_, hl, hcont⟩, fun hothers => classify_eq_of_lookup hl hcont hothers⟩

/-- Witness for C2 (amended): tuning the unseen category "furious" at 45,
where no default interval reaches, makes classification of 45 return
"furious". -/
theorem tune_contains_point_classify_witness :
    determine_mood_from_temperature
      (tune_mood DEFAULT_THRESHOLDS "furious" 45) 45 = "furious" :=
  (tune_contains_point_classify DEFAULT_THRESHOLDS "furious" 45).2 (by
    intro p hp hpc
    simp [tune_mood, lookupThreshold, save_user_thresholds,
      DEFAULT_THRESHOLDS] at hp
    rcases hp with h | h | h | h | h | h <;> subst h <;>
      first
      | exact absurd rfl hpc
      | · simp only
          norm_num)

/-- C1, counterexample: the mark step is `UPDATE ... WHERE id = %s` with no
`playlist_played = False` guard and no affected-row check, and the playback
attempt runs before the mark; so two daemon instances that both select
reading 1 before either marks it both invoke playback for it — the combined
play logs record reading 1 twice under this interleaving. -/
theorem two_daemons_double_play :
    ((runSched raceStart [true, false, true, false]).logA ++
      (runSched raceStart [true, false, true, false]).logB).count 1 = 2 := by
  decide

/-- C1, amended: a single serial daemon instance, whose selection query and
mark update run tick after tick as in `run_daemon`, invokes the playback
capability at most once per reading id (each tick marks the reading it
selected, and the selection query only returns unmarked readings). -/
theorem single_daemon_plays_at_most_once (env : SpotifyEnv) (led : Ledger)
    (n i : Nat) :
    ((runTicks env n ⟨led, []⟩).playLog.map Prod.fst).count i ≤ 1 := by
  have h := runTicks_preserves_daemonInv env n ⟨led, []⟩
    ⟨by intro j hj; simp at hj, by simp⟩
  exact List.nodup_iff_count_le_one.mp h.2 i

/-- C6, counterexample: the selection query orders by timestamp only, with no
id tiebreak; on a ledger whose two undispatched readings share a timestamp,
both readings satisfy everything the query guarantees about the fetched row,
so the selected reading is not uniquely determined. -/
theorem tied_timestamps_selection_not_unique :
    canSelect tieLedger tieReadingA ∧ canSelect tieLedger tieReadingB ∧
      tieReadingA ≠ tieReadingB := by
  refine ⟨?_, ?_, ?_⟩ <;>
    simp [canSelect, tieLedger, tieReadingA, tieReadingB]

/-- C6, amended: each tick selects an undispatched reading of minimal
`occurred_at`; the selection is unique whenever the undispatched readings
have pairwise distinct timestamps, but ties are not broken by id. -/
theorem selection_unique_of_distinct_timestamps (led : Ledger)
    (hts : (led.filter (fun r => !r.playlist_played)).Pairwise
      (fun a b => a.timestamp ≠ b.timestamp)) :
    (∀ r, selectOldestUnplayed led = some r → canSelect led r) ∧
    (∀ r s, canSelect led r → canSelect led s → r = s) := by
  constructor
  · intro r h
    exact select_some_canSelect h
  · intro r s hr hs
    by_contra hne
    have hrf : r ∈ led.filter (fun x => !x.playlist_played) :=
      List.mem_filter.mpr ⟨hr.1, by simp [hr.2.1]⟩
    have hsf : s ∈ led.filter (fun x => !x.playlist_played) :=
      List.mem_filter.mpr ⟨hs.1, by simp [hs.2.1]⟩
    have heq : r.timestamp = s.timestamp :=
      le_antisymm (hr.2.2 s hs.1 hs.2.1) (hs.2.2 r hr.1 hr.2.1)
    exact absurd heq
      (List.Pairwise.forall (fun x y hxy => Ne.symm hxy) hts hrf hsf hne)

/-- Witness for C6 (amended): on the scenario ledger, whose undispatched
readings have distinct timestamps, the selected reading id 1 satisfies the
selection characterisation. -/
theorem selection_unique_of_distinct_timestamps_witness :
    canSelect demoLedger demoReading1 :=
  (selection_unique_of_distinct_timestamps demoLedger (by decide)).1
    demoReading1 (by rfl)

/-- C7, counterexample: on readings with occurred_at seconds 0, 5, 1 for ids
1, 2, 3, the daemon does not process them in the claimed order id 3, id 1,
id 2. -/
theorem dispatch_order_counterexample :
    (runTicks env0 3 ⟨demoLedger, []⟩).playLog.map Prod.fst ≠ [3, 1, 2] := by
  decide

/-- C7, amended: the daemon processes readings oldest first, by ascending
occurred_at: id 1 (10:00:00), then id 3 (10:00:01), then id 2 (10:00:05). -/
theorem dispatch_order_oldest_first :
    (runTicks env0 3 ⟨demoLedger, []⟩).playLog.map Prod.fst = [1, 3, 2] := by
  decide

/-- C8: whatever the playback environment does — success, playback error, no
configured playlist, not connected, or no active output target — the selected
reading is marked dispatched, and the tick completes normally recording the
attempt's outcome (the embedding is a total function: the catch-all handlers
let no playback exception escape the tick). -/
theorem selected_reading_always_marked (env : SpotifyEnv) (st : DaemonState)
    (r : Reading) (h : selectOldestUnplayed st.ledger = some r) :
    idMarked (check_for_new_mood_and_play env st).ledger r.id ∧
    (check_for_new_mood_and_play env st).playLog
      = st.playLog ++ [(r.id, play_mood_playlist env r.user_mood)] := by
  unfold check_for_new_mood_and_play
  rw [h]
  exact ⟨idMarked_markPlayed_self _ _, rfl⟩

/-- Witness for C8, the spec's scenario: a tick that finds no active output
target still marks the selected reading id 1 as dispatched and logs the
no-device outcome. -/
theorem selected_reading_always_marked_witness :
    idMarked (check_for_new_mood_and_play envNoDevice
        ⟨demoLedger, []⟩).ledger 1 ∧
    (check_for_new_mood_and_play envNoDevice ⟨demoLedger, []⟩).playLog
      = [(1, PlayOutcome.noDevice)] :=
  ⟨(selected_reading_always_marked envNoDevice ⟨demoLedger, []⟩ demoReading1
      (by rfl)).1,
   (selected_reading_always_marked envNoDevice ⟨demoLedger, []⟩ demoReading1
      (by rfl)).2⟩

/-- C10: submitting a manual mood with no temperature mutates only the most
recent reading, and only its mood, mood source and playlist mapping: no
reading is created or removed, every field outside those three — the
dispatched flag in particular — is unchanged on every reading, readings other
than the most recent are wholly untouched, and a ledger with nothing left to
dispatch still has nothing to dispatch afterwards (re-declaring a mood on an
already-dispatched reading triggers no second dispatch). -/
theorem manual_mood_frame (led : Ledger) (mood : String) :
    (manual_mood_selection led mood).length = led.length ∧
    (manual_mood_selection led mood).map frameFields = led.map frameFields ∧
    (∀ (k : Nat) (r : Reading), led[k]? = some r →
      latestReadingId led ≠ some r.id →
      (manual_mood_selection led mood)[k]? = some r) ∧
    (∀ (k : Nat) (r : Reading), led[k]? = some r →
      latestReadingId led = some r.id →
      (manual_mood_selection led mood)[k]? = some
        { r with
          user_mood := mood
          mood_source := "manual"
          playlist_id := playlistFor MOOD_PLAYLISTS mood }) ∧
    (selectOldestUnplayed led = none →
      selectOldestUnplayed (manual_mood_selection led mood) = none) := by
  cases hl : latestReadingId led with
  | none =>
    simp only [manual_mood_selection, hl]
    refine ⟨trivial, trivial, fun k r hkr _ => hkr, ?_, fun h => h⟩
    intro k r hkr habs
    exact Option.noConfusion habs
  | some i =>
    simp only [manual_mood_selection, hl]
    refine ⟨List.length_map _ _, ?_, ?_, ?_, ?_⟩
    · rw [List.map_map]
      apply List.map_congr_left
      intro r hr
      by_cases h : r.id = i <;> simp [h, frameFields]
    · intro k r hkr hne
      have hri : r.id ≠ i := by
        intro h
        exact hne (by rw [h])
      rw [List.getElem?_map, hkr]
      simp [hri]
    · intro k r hkr heq
      injection heq with heq
      rw [List.getElem?_map, hkr]
      simp [heq.symm]
    · intro h
      rw [select_none_iff] at h ⊢
      rw [List.filter_eq_nil_iff] at h ⊢
      intro r2 hr2
      rcases List.mem_map.mp hr2 with ⟨r, hr, rfl⟩
      have hp := h r hr
      by_cases hri : r.id = i <;> simp [hri] at hp ⊢ <;> exact hp

/-- Witness for C10: updating the mood of a fully dispatched two-reading
ledger creates no reading and leaves nothing for the dispatch daemon. -/
theorem manual_mood_frame_witness :
    (manual_mood_selection dispLedger "calm").length = dispLedger.length ∧
    selectOldestUnplayed (manual_mood_selection dispLedger "calm") = none :=
  ⟨(manual_mood_frame dispLedger "calm").1,
   (manual_mood_frame dispLedger "calm").2.2.2.2 (by rfl)⟩

end MoodTracker
